import Mathlib

/-!
Shallow embedding of the kurma stage1 container Manager (package `container`)
and the network interface-name helper (package `network`).

Pure data and control flow of the Go source are translated directly; external
capabilities (cgroup library, hash parsing of the appc types package, the
random byte source) appear as explicit function parameters, and the goroutine
started by `container.start()`, the loggers and the locks are not modelled
(the claims under study are about the synchronous, single-caller behaviour).
The container registry (a Go map keyed by uuid) is modelled as an association
list; insertion shadows by removing the old key first, matching map
assignment, and deletion removes the key, matching `delete`.
-/

/-- Modelled from the spec: the per-kind namespace setting of the kurma schema
package (not included in the excerpted sources). Validation only distinguishes
the host-shared setting from isolated settings, so two values suffice. -/
inductive LinuxNamespaceValue where
  | host
  | isolated
deriving DecidableEq

/-- Modelled from the spec: the LinuxNamespaces isolator value of the kurma
schema package (not included in the excerpted sources), carrying one setting
per checkable namespace kind (ipc, net, pid, user, uts). The Go accessor
methods IPC(), Net(), PID(), User(), UTS() are the field projections. -/
structure LinuxNamespaces where
  ipc : LinuxNamespaceValue
  net : LinuxNamespaceValue
  pid : LinuxNamespaceValue
  user : LinuxNamespaceValue
  uts : LinuxNamespaceValue
deriving DecidableEq

/-- The value attached to the namespaces isolator entry of an app: either a
recognized LinuxNamespaces value, or a value of another type, on which the
type assertion inside Validate fails and the check is skipped. -/
inductive IsolatorValue where
  | namespaces (niso : LinuxNamespaces)
  | other
deriving DecidableEq

/-- The App section of an image manifest. Only the result of looking up the
namespaces isolator by name is relevant to the excerpted code, so the app is
modelled by that lookup result (none models an app whose isolator list has no
entry named by LinuxNamespacesName). -/
structure App where
  nsIsolator : Option IsolatorValue
deriving DecidableEq

/-- The image manifest fields read by the excerpted code: the declared
identifier, the optional App section, the labels and the annotations. -/
structure ImageManifest where
  name : String
  app : Option App
  labels : List (String × String)
  annotations : List (String × String)
deriving DecidableEq

/-- Error kinds of the embedded operations, one per distinct fmt.Errorf site
or external failure surfaced by the excerpted code. -/
inductive Err where
  | missingApp
  | internalServerError
  | isolationViolation (kind : String)
  | invalidHash
  | invalidName
deriving DecidableEq

/-- The Options structure of the container package. -/
structure Options where
  parentCgroupName : String
  containerDirectory : String
  volumeDirectory : String
  requiredNamespaces : List String
deriving DecidableEq

/-- Handle to a created cgroup, as returned by the external cgroups library;
only its identity matters here. -/
structure Cgroup where
  name : String
deriving DecidableEq

/-- A parsed image hash as produced by the external types.NewHash. Only its
identity matters to the excerpted code, which stores it in the image
descriptor of the runtime app. -/
structure Hash where
  val : String
deriving DecidableEq

/-- The runtime image descriptor of a pod manifest app entry
(schema.RuntimeImage). -/
structure RuntimeImage where
  id : Hash
  name : Option String
  labels : List (String × String)
deriving DecidableEq

/-- One runtime app entry of a pod manifest (schema.RuntimeApp). -/
structure RuntimeApp where
  name : String
  app : Option App
  image : RuntimeImage
deriving DecidableEq

/-- The pod manifest fields written by Create: annotations and the app list. -/
structure PodManifest where
  annotations : List (String × String)
  apps : List RuntimeApp
deriving DecidableEq

/-- Modelled from the spec: kschema.BlankPodManifest (not included in the
excerpted sources) returns a fresh empty pod manifest which Create then
fills in. -/
def BlankPodManifest : PodManifest :=
  { annotations := [], apps := [] }

/-- The Container fields assigned synchronously by Create: the generated
identity, the supplied image hash, the originating image manifest and the
built pod manifest. The back-reference to the manager, the logger and the
wait channel are not modelled. -/
structure Container where
  uuid : String
  imageHash : String
  image : ImageManifest
  pod : PodManifest
deriving DecidableEq

/-- The Manager state read and written by the excerpted code: its options,
the parent cgroup handle and the container registry. -/
structure Manager where
  options : Options
  cgroup : Cgroup
  containers : List (String × Container)
deriving DecidableEq

/-- The per-kind accessor table built inside Validate: a lookup returning the
setting of a checkable namespace kind, or none for an unrecognized kind
(the map-miss case of the Go code). -/
def checks (niso : LinuxNamespaces) (kind : String) : Option LinuxNamespaceValue :=
  if kind = "ipc" then some niso.ipc
  else if kind = "net" then some niso.net
  else if kind = "pid" then some niso.pid
  else if kind = "user" then some niso.user
  else if kind = "uts" then some niso.uts
  else none

/-- The five namespace kinds the Validate table can check. -/
def checkableKinds : List String :=
  ["ipc", "net", "pid", "user", "uts"]

/-- The loop of Validate over the required namespace kinds: an unrecognized
kind yields the internal server error, a kind whose setting is host yields the
isolation violation naming it, otherwise the loop continues. -/
def validateNamespaces (niso : LinuxNamespaces) : List String → Option Err
  | [] => none
  | ns :: rest =>
    match checks niso ns with
    | none => some Err.internalServerError
    | some v =>
      if v = LinuxNamespaceValue.host then some (Err.isolationViolation ns)
      else validateNamespaces niso rest

/-- Manager.Validate: reject a manifest without an App; if the namespaces
isolator is present and its value has the recognized type, run the
required-namespaces loop; otherwise accept. -/
def Manager.Validate (manager : Manager) (imageManifest : ImageManifest) : Option Err :=
  match imageManifest.app with
  | none => some Err.missingApp
  | some a =>
    match a.nsIsolator with
    | some (IsolatorValue.namespaces niso) =>
      validateNamespaces niso manager.options.requiredNamespaces
    | _ => none

/-- A character allowed in an AC name: a lowercase ASCII letter or a digit. -/
def isACNameChar (c : Char) : Bool :=
  c.isDigit || (Char.ofNat 97 ≤ c && c ≤ Char.ofNat 122)

/-- State machine for the tail of the AC name grammar, entered after at least
one allowed character: further allowed characters continue, a dash must be
followed by an allowed character, anything else rejects. -/
def acNameTail : List Char → Bool
  | [] => true
  | c :: rest =>
    if isACNameChar c then acNameTail rest
    else if c = Char.ofNat 45 then
      match rest with
      | [] => false
      | d :: rest2 => isACNameChar d && acNameTail rest2
    else false

/-- The external types.ValidACName check of the appc schema package: the
runtime naming grammar, lowercase alphanumeric groups separated by single
dashes, nonempty, neither starting nor ending with a dash. -/
def ValidACName (s : String) : Bool :=
  match s.data with
  | [] => false
  | c :: rest => isACNameChar c && acNameTail rest

/-- Characters of the current segment (reversed) while scanning for the last
slash-separated segment of an identifier. -/
def lastSegment : List Char → List Char → List Char
  | acc, [] => acc.reverse
  | acc, c :: rest =>
    if c = Char.ofNat 47 then lastSegment [] rest
    else lastSegment (c :: acc) rest

/-- Modelled from the spec: convertACIdentifierToACName, a helper of the
container package not included in the excerpted sources. Per the spec it
derives a runtime app name deterministically from the declared image
identifier, normalizing to the runtime naming grammar, and a name that fails
to normalize is an error. It is modelled as taking the final slash-separated
segment of the identifier and requiring it to satisfy the grammar. -/
def convertACIdentifierToACName (identifier : String) : Option String :=
  let seg := String.mk (lastSegment [] identifier.data)
  if ValidACName seg then some seg else none

/-- Registry insertion, matching Go map assignment: the new binding shadows
any previous binding of the same key. -/
def registryInsert (key : String) (c : Container) (l : List (String × Container)) :
    List (String × Container) :=
  (key, c) :: l.filter (fun p => !(p.1 = key))

/-- Manager.Create, parameterized over the external types.NewHash parser
(newHash, none modelling a parse error) and the generated identity (newUuid,
standing for uuid.Variant4().String()). Returns the manager state after the
call together with the result. The asynchronous container.start() call does
not touch the fields modelled here and creation returns immediately after
registration, so it is not modelled. -/
def Manager.Create (newHash : String → Option Hash) (newUuid : String)
    (manager : Manager) (name : String) (imageManifest : ImageManifest)
    (imageHash : String) : Manager × Except Err Container :=
  match manager.Validate imageManifest with
  | some e => (manager, Except.error e)
  | none =>
    match newHash imageHash with
    | none => (manager, Except.error Err.invalidHash)
    | some hash =>
      let nameResult : Except Err String :=
        if name = "" then
          match convertACIdentifierToACName imageManifest.name with
          | none => Except.error Err.invalidName
          | some n => Except.ok n
        else Except.ok name
      match nameResult with
      | Except.error e => (manager, Except.error e)
      | Except.ok chosenName =>
        let container : Container :=
          { uuid := newUuid
            imageHash := imageHash
            image := imageManifest
            pod :=
              { BlankPodManifest with
                annotations := imageManifest.annotations
                apps :=
                  [{ name := chosenName
                     app := imageManifest.app
                     image :=
                       { id := hash
                         name := some imageManifest.name
                         labels := imageManifest.labels } }] } }
        ({ manager with containers := registryInsert newUuid container manager.containers },
         Except.ok container)

/-- Manager.remove: delete the container registry entry under the container
identity; the Go method returns nothing and cannot fail. -/
def Manager.remove (manager : Manager) (container : Container) : Manager :=
  { manager with
    containers := manager.containers.filter (fun p => !(p.1 = container.uuid)) }

/-- Whether the registry holds an entry under the given identity. -/
def Manager.hasContainer (manager : Manager) (uuid : String) : Bool :=
  manager.containers.any (fun p => p.1 = uuid)

/-- Construction errors of NewManager: the wrapped cgroup check failure and
the cgroup creation failure returned as-is. -/
inductive NewManagerError where
  | checkCgroupsFailed (e : String)
  | cgroupSetupFailed (e : String)
deriving DecidableEq

/-- NewManager, parameterized over the external cgroups library:
checkCgroups is the result of cgroups.CheckCgroups (some e modelling a
failure) and newCgroup is cgroups.New. On success the returned manager holds
the supplied options, the created parent cgroup and an empty registry; no
container admission is performed. -/
def NewManager (checkCgroups : Option String) (newCgroup : String → Except String Cgroup)
    (opts : Options) : Except NewManagerError Manager :=
  match checkCgroups with
  | some e => Except.error (NewManagerError.checkCgroupsFailed e)
  | none =>
    match newCgroup opts.parentCgroupName with
    | Except.error e => Except.error (NewManagerError.cgroupSetupFailed e)
    | Except.ok cg => Except.ok { options := opts, cgroup := cg, containers := [] }

/-- Manager.SwapDirectory: run the supplied function with the
ContainerDirectory option set to the supplied path, then restore the saved
value by the deferred assignment. The function is modelled as a manager
transformer; the deferred restore runs on whatever state the function
leaves. -/
def Manager.SwapDirectory (manager : Manager) (containerDirectory : String)
    (f : Manager → Manager) : Manager :=
  let dir := manager.options.containerDirectory
  let swapped :=
    { manager with options := { manager.options with containerDirectory := containerDirectory } }
  let after := f swapped
  { after with options := { after.options with containerDirectory := dir } }

/-- Models Go filepath.Join on the two elements used here. The volume names
reaching it satisfy the runtime naming grammar, hence contain no slash and no
dot, so path cleaning is the identity and Join reduces to inserting the
separator between nonempty elements. -/
def filepathJoin (dir name : String) : String :=
  if dir = "" then name
  else if name = "" then dir
  else dir ++ "/" ++ name

/-- Manager.getVolumePath over an explicit filesystem state, the list of
existing directories. An invalid name is rejected before any filesystem
access; otherwise os.Mkdir either creates the directory or observes that it
already exists, which is treated as success (other filesystem failures, such
as permission errors, are outside the model). -/
def Manager.getVolumePath (manager : Manager) (fs : List String) (name : String) :
    List String × Except Err String :=
  if !ValidACName name then (fs, Except.error Err.invalidName)
  else
    let volumePath := filepathJoin manager.options.volumeDirectory name
    if volumePath ∈ fs then (fs, Except.ok volumePath)
    else (volumePath :: fs, Except.ok volumePath)

/-- The allowed output characters of the network helper random. -/
def alphaNumericalCharacters : String :=
  "0123456789ABCDEFGHIJKLMNOPQRSTUVWXYZabcdefghijklmnopqrstuvwxyz"

/-- The network package helper random, parameterized over the byte stream
produced by crypto/rand (bytes i being the i-th byte read, reduced mod 256 as
a Go byte is). The length is capped at 32 and each byte is mapped into the
allowed character set by reduction mod its size. -/
def random (n : Nat) (bytes : Nat → Nat) : String :=
  let m := if n > 32 then 32 else n
  String.mk ((List.range m).map (fun i =>
    alphaNumericalCharacters.data.getD
      ((bytes i % 256) % alphaNumericalCharacters.data.length) (Char.ofNat 48)))

/-- Base options used by the concrete instances below. -/
def optsBase : Options :=
  { parentCgroupName := "kurma"
    containerDirectory := "/var/kurma/containers"
    volumeDirectory := "/var/kurma/volumes"
    requiredNamespaces := [] }

/-- A namespaces isolator value isolating every checkable kind. -/
def nisoAllIsolated : LinuxNamespaces :=
  { ipc := LinuxNamespaceValue.isolated
    net := LinuxNamespaceValue.isolated
    pid := LinuxNamespaceValue.isolated
    user := LinuxNamespaceValue.isolated
    uts := LinuxNamespaceValue.isolated }

/-- A namespaces isolator value sharing the net namespace with the host. -/
def nisoNetHost : LinuxNamespaces :=
  { nisoAllIsolated with net := LinuxNamespaceValue.host }

/-- An app whose namespaces isolator isolates every kind. -/
def appIsolated : App :=
  { nsIsolator := some (IsolatorValue.namespaces nisoAllIsolated) }

/-- An app whose namespaces isolator sets net to host-shared. -/
def appNetHost : App :=
  { nsIsolator := some (IsolatorValue.namespaces nisoNetHost) }

/-- A manifest declaring the all-isolated namespaces isolator. -/
def imIsolated : ImageManifest :=
  { name := "example.com/app", app := some appIsolated, labels := [], annotations := [] }

/-- A manifest declaring a net-host-shared namespaces isolator. -/
def imNetHost : ImageManifest :=
  { name := "example.com/app", app := some appNetHost, labels := [], annotations := [] }

/-- A manifest without an App section. -/
def imNoApp : ImageManifest :=
  { name := "example.com/app", app := none, labels := [], annotations := [] }

/-- A fresh manager with the given required namespaces and empty registry. -/
def mkMgr (req : List String) : Manager :=
  { options := { optsBase with requiredNamespaces := req }
    cgroup := { name := "kurma" }
    containers := [] }

/-- A manager requiring an unrecognized namespace kind. -/
def mgrBogus : Manager := mkMgr ["bogus"]

/-- A manager requiring the net and pid namespaces. -/
def mgrNetPid : Manager := mkMgr ["net", "pid"]

/-- A manager requiring net first and then an unrecognized kind. -/
def mgrNetBogus : Manager := mkMgr ["net", "bogus"]

/-- The container built by the concrete successful Create call below. -/
def containerW : Container :=
  { uuid := "uuid-1"
    imageHash := "sha512-abc"
    image := imIsolated
    pod :=
      { annotations := []
        apps :=
          [{ name := "app"
             app := some appIsolated
             image :=
               { id := { val := "sha512-abc" }
                 name := some "example.com/app"
                 labels := [] } }] } }

/-- The manager state after the concrete successful Create call below. -/
def mgr2W : Manager :=
  { mgrNetPid with containers := [("uuid-1", containerW)] }

/-- A registered container with identity aaaa. -/
def containerA : Container :=
  { uuid := "aaaa", imageHash := "sha512-abc", image := imIsolated, pod := BlankPodManifest }

/-- A container with identity bbbb, never registered below. -/
def containerB : Container :=
  { containerA with uuid := "bbbb" }

/-- A manager whose registry holds exactly the container aaaa. -/
def mgrWithA : Manager :=
  { options := optsBase, cgroup := { name := "kurma" }, containers := [("aaaa", containerA)] }

theorem checks_eq_none_iff (niso : LinuxNamespaces) (kind : String) :
    checks niso kind = none ↔ kind ∉ checkableKinds := by
  simp only [checks, checkableKinds, List.mem_cons, List.not_mem_nil, or_false]
  split_ifs with h1 h2 h3 h4 h5 <;> simp_all

theorem validateNamespaces_isSome_iff (niso : LinuxNamespaces) (L : List String)
    (hL : ∀ k ∈ L, k ∈ checkableKinds) :
    (validateNamespaces niso L).isSome = true ↔
      ∃ k ∈ L, checks niso k = some LinuxNamespaceValue.host := by
  induction L with
  | nil => simp [validateNamespaces]
  | cons k rest ih =>
    have hk : k ∈ checkableKinds := hL k (by simp)
    obtain ⟨v, hv⟩ : ∃ v, checks niso k = some v := by
      rcases h : checks niso k with _ | v
      · exact absurd ((checks_eq_none_iff niso k).mp h) (by simpa using hk)
      · exact ⟨v, rfl⟩
    have ihr := ih (fun x hx => hL x (List.mem_cons_of_mem _ hx))
    by_cases hvh : v = LinuxNamespaceValue.host
    · subst hvh
      have hred : validateNamespaces niso (k :: rest) = some (Err.isolationViolation k) := by
        simp [validateNamespaces, hv]
      rw [hred]
      simp only [Option.isSome_some, true_iff]
      exact ⟨k, by simp, hv⟩
    · simp only [validateNamespaces, hv, if_neg hvh]
      rw [ihr]
      constructor
      · rintro ⟨x, hx, hxh⟩
        exact ⟨x, List.mem_cons_of_mem _ hx, hxh⟩
      · rintro ⟨x, hx, hxh⟩
        rcases List.mem_cons.mp hx with rfl | hx2
        · rw [hv] at hxh
          exact absurd (Option.some.inj hxh) hvh
        · exact ⟨x, hx2, hxh⟩

theorem validateNamespaces_isSome_of_bad (niso : LinuxNamespaces) (L : List String)
    (h : ∃ k ∈ L, k ∉ checkableKinds) :
    (validateNamespaces niso L).isSome = true := by
  induction L with
  | nil => simp at h
  | cons k rest ih =>
    obtain ⟨x, hx, hxbad⟩ := h
    rcases hcase : checks niso k with _ | v
    · simp [validateNamespaces, hcase]
    · by_cases hvh : v = LinuxNamespaceValue.host
      · subst hvh
        simp [validateNamespaces, hcase]
      · simp only [validateNamespaces, hcase, if_neg hvh]
        apply ih
        rcases List.mem_cons.mp hx with rfl | hx2
        · have hnone : checks niso x = none := (checks_eq_none_iff niso x).mpr hxbad
          rw [hcase] at hnone
          simp at hnone
        · exact ⟨x, hx2, hxbad⟩

theorem validateNamespaces_internal (niso : LinuxNamespaces) (L : List String)
    (hbad : ∃ k ∈ L, k ∉ checkableKinds)
    (hnohost : ∀ k ∈ L, checks niso k ≠ some LinuxNamespaceValue.host) :
    validateNamespaces niso L = some Err.internalServerError := by
  induction L with
  | nil => simp at hbad
  | cons k rest ih =>
    rcases hcase : checks niso k with _ | v
    · simp [validateNamespaces, hcase]
    · have hvh : v ≠ LinuxNamespaceValue.host := by
        intro hveq
        subst hveq
        exact hnohost k (by simp) hcase
      simp only [validateNamespaces, hcase, if_neg hvh]
      apply ih
      · obtain ⟨x, hx, hxbad⟩ := hbad
        rcases List.mem_cons.mp hx with rfl | hx2
        · have hnone : checks niso x = none := (checks_eq_none_iff niso x).mpr hxbad
          rw [hcase] at hnone
          simp at hnone
        · exact ⟨x, hx2, hxbad⟩
      · exact fun x hx => hnohost x (List.mem_cons_of_mem _ hx)

/-- C1 (amended): for a manifest with an App that declares the namespaces
isolator with the recognized value type, and a required-namespace
configuration all of whose kinds are checkable, Validate returns an error iff
some required kind is set to host-shared; and a manifest whose app omits the
namespaces isolator is never rejected, for every configuration. -/
theorem Validate_error_iff_required_host (m : Manager) (im : ImageManifest) (a : App)
    (happ : im.app = some a) :
    (∀ niso, a.nsIsolator = some (IsolatorValue.namespaces niso) →
      (∀ k ∈ m.options.requiredNamespaces, k ∈ checkableKinds) →
      ((m.Validate im).isSome = true ↔
        ∃ k ∈ m.options.requiredNamespaces,
          checks niso k = some LinuxNamespaceValue.host)) ∧
    (a.nsIsolator = none → m.Validate im = none) := by
  constructor
  · intro niso hiso hck
    simp only [Manager.Validate, happ, hiso]
    exact validateNamespaces_isSome_iff niso _ hck
  · intro hnone
    simp [Manager.Validate, happ, hnone]

/-- C1 counterexample: with required namespaces ["bogus"] and a manifest whose
isolator isolates everything, Validate errors although no required kind is set
to host-shared, refuting the claimed equivalence for arbitrary
configurations. -/
theorem Validate_error_iff_counterexample :
    (mgrBogus.Validate imIsolated).isSome = true ∧
    ¬ ∃ k ∈ mgrBogus.options.requiredNamespaces,
        checks nisoAllIsolated k = some LinuxNamespaceValue.host := by
  decide

/-- C1 witness: at a manager requiring net and pid and a manifest sharing net
with the host, the proved equivalence instantiates with every hypothesis
discharged. -/
theorem Validate_error_iff_required_host_witness :
    (mgrNetPid.Validate imNetHost).isSome = true ↔
      ∃ k ∈ mgrNetPid.options.requiredNamespaces,
        checks nisoNetHost k = some LinuxNamespaceValue.host :=
  (Validate_error_iff_required_host mgrNetPid imNetHost appNetHost rfl).1
    nisoNetHost rfl (by decide)

/-- C4 (amended): a required-namespace configuration containing an
unrecognized kind always makes Validate fail on a manifest declaring the
recognized namespaces isolator, and when additionally no required kind is set
to host-shared the failure is the internal server error, so the defensive
branch is reachable. -/
theorem Validate_unrecognized_kind_fails (m : Manager) (im : ImageManifest) (a : App)
    (niso : LinuxNamespaces)
    (happ : im.app = some a)
    (hiso : a.nsIsolator = some (IsolatorValue.namespaces niso))
    (hbad : ∃ k ∈ m.options.requiredNamespaces, k ∉ checkableKinds) :
    (m.Validate im).isSome = true ∧
    ((∀ k ∈ m.options.requiredNamespaces,
        checks niso k ≠ some LinuxNamespaceValue.host) →
      m.Validate im = some Err.internalServerError) := by
  constructor
  · simp only [Manager.Validate, happ, hiso]
    exact validateNamespaces_isSome_of_bad niso _ hbad
  · intro hnohost
    simp only [Manager.Validate, happ, hiso]
    exact validateNamespaces_internal niso _ hbad hnohost

/-- C4 counterexample: with required namespaces ["net", "bogus"] and a
manifest sharing net with the host, Validate fails with the isolation
violation for net, not with the internal error, refuting the claim that any
configuration containing an unrecognized kind yields the internal-error
kind. -/
theorem Validate_unrecognized_counterexample :
    ("bogus" ∈ mgrNetBogus.options.requiredNamespaces ∧ "bogus" ∉ checkableKinds) ∧
    mgrNetBogus.Validate imNetHost = some (Err.isolationViolation "net") ∧
    Err.isolationViolation "net" ≠ Err.internalServerError := by
  decide

/-- C4 witness: with required namespaces ["bogus"] and the all-isolated
manifest, the amended theorem applies and both conclusions hold, showing the
internal-error branch is reached. -/
theorem Validate_unrecognized_kind_fails_witness :
    (mgrBogus.Validate imIsolated).isSome = true ∧
    ((∀ k ∈ mgrBogus.options.requiredNamespaces,
        checks nisoAllIsolated k ≠ some LinuxNamespaceValue.host) →
      mgrBogus.Validate imIsolated = some Err.internalServerError) :=
  Validate_unrecognized_kind_fails mgrBogus imIsolated appIsolated nisoAllIsolated
    rfl rfl (by decide)

/-- C5: a manifest without an App section is rejected by Validate with the
missing-app error, and Create with such a manifest fails with that same error
returning the manager unchanged, for every name, hash and identity. -/
theorem Validate_missingApp_and_Create_rejects (m : Manager) (im : ImageManifest)
    (h : im.app = none) :
    m.Validate im = some Err.missingApp ∧
    ∀ newHash newUuid name imageHash,
      Manager.Create newHash newUuid m name im imageHash =
        (m, Except.error Err.missingApp) := by
  have hv : m.Validate im = some Err.missingApp := by
    simp [Manager.Validate, h]
  refine ⟨hv, ?_⟩
  intro newHash newUuid name imageHash
  simp [Manager.Create, hv]

/-- C5 witness: the no-App manifest is rejected by Validate and by a concrete
Create call, which leaves the concrete manager untouched. -/
theorem Validate_missingApp_and_Create_rejects_witness :
    mgrNetPid.Validate imNoApp = some Err.missingApp ∧
    Manager.Create (fun s => some { val := s }) "uuid-1" mgrNetPid "" imNoApp
        "sha512-abc" =
      (mgrNetPid, Except.error Err.missingApp) :=
  ⟨(Validate_missingApp_and_Create_rejects mgrNetPid imNoApp rfl).1,
   (Validate_missingApp_and_Create_rejects mgrNetPid imNoApp rfl).2
     (fun s => some { val := s }) "uuid-1" "" "sha512-abc"⟩

/-- C3: whenever Create returns an error, the returned manager state, the
container registry included, is exactly the state before the call. -/
theorem Create_error_leaves_registry (newHash : String → Option Hash) (newUuid : String)
    (m : Manager) (name : String) (im : ImageManifest) (imageHash : String)
    (m2 : Manager) (e : Err)
    (h : Manager.Create newHash newUuid m name im imageHash = (m2, Except.error e)) :
    m2 = m := by
  rcases hv : m.Validate im with _ | e1
  · rcases hh : newHash imageHash with _ | hash
    · simp [Manager.Create, hv, hh, Prod.mk.injEq] at h
      exact h.1.symm
    · by_cases hname : name = ""
      · rcases hconv : convertACIdentifierToACName im.name with _ | n
        · simp [Manager.Create, hv, hh, hname, hconv, Prod.mk.injEq] at h
          exact h.1.symm
        · simp [Manager.Create, hv, hh, hname, hconv, Prod.mk.injEq] at h
      · simp [Manager.Create, hv, hh, hname, Prod.mk.injEq] at h
  · simp [Manager.Create, hv, Prod.mk.injEq] at h
    exact h.1.symm

/-- C3 witness: a concrete failing Create call, rejected for the missing App,
leaves the concrete manager exactly as it was. -/
theorem Create_error_leaves_registry_witness : mgrNetPid = mgrNetPid :=
  Create_error_leaves_registry (fun s => some { val := s }) "uuid-1" mgrNetPid ""
    imNoApp "sha512-abc" mgrNetPid Err.missingApp rfl

/-- C2 (amended): whenever Create called with an empty name returns a
container, the name declared by the image normalizes to some runtime name n,
and the pod manifest of the returned container copies the image annotations
and holds exactly one runtime app named n whose app spec is the App of the
manifest and whose image descriptor carries the parsed hash, the declared
image name and the image labels. -/
theorem Create_blank_name_structure (newHash : String → Option Hash) (newUuid : String)
    (m : Manager) (im : ImageManifest) (imageHash : String) (m2 : Manager)
    (c : Container) (a : App) (hashv : Hash)
    (happ : im.app = some a)
    (hnh : newHash imageHash = some hashv)
    (hc : Manager.Create newHash newUuid m "" im imageHash = (m2, Except.ok c)) :
    ∃ n, convertACIdentifierToACName im.name = some n ∧
      c.pod.annotations = im.annotations ∧
      c.pod.apps =
        [{ name := n, app := some a,
           image := { id := hashv, name := some im.name, labels := im.labels } }] ∧
      c.imageHash = imageHash := by
  rcases hv : m.Validate im with _ | e1
  · rcases hconv : convertACIdentifierToACName im.name with _ | n
    · simp [Manager.Create, hv, hnh, hconv, Prod.mk.injEq] at hc
    · simp [Manager.Create, hv, hnh, hconv, Prod.mk.injEq] at hc
      obtain ⟨hm2, hcc⟩ := hc
      subst hcc
      refine ⟨n, rfl, ?_⟩
      simp [happ]
  · simp [Manager.Create, hv, Prod.mk.injEq] at hc

/-- C2 counterexample: a manifest with a non-nil App, a well-formed hash and a
normalizable declared name is nonetheless rejected by Create when it violates
the isolation policy of the manager, so the claim does not hold of every such
manifest: no container is returned at all. -/
theorem Create_blank_name_counterexample :
    imNetHost.app.isSome = true ∧
    (convertACIdentifierToACName imNetHost.name).isSome = true ∧
    Manager.Create (fun s => some { val := s }) "uuid-1" mgrNetPid "" imNetHost
        "sha512-abc" =
      (mgrNetPid, Except.error (Err.isolationViolation "net")) :=
  ⟨rfl, rfl, rfl⟩

/-- C2 witness: the amended theorem instantiated at a concrete successful
blank-name Create call, every hypothesis discharged by evaluation. -/
theorem Create_blank_name_structure_witness :
    ∃ n, convertACIdentifierToACName imIsolated.name = some n ∧
      containerW.pod.annotations = imIsolated.annotations ∧
      containerW.pod.apps =
        [{ name := n, app := some appIsolated,
           image := { id := { val := "sha512-abc" }, name := some imIsolated.name,
                      labels := imIsolated.labels } }] ∧
      containerW.imageHash = "sha512-abc" :=
  Create_blank_name_structure (fun s => some { val := s }) "uuid-1" mgrNetPid
    imIsolated "sha512-abc" mgr2W containerW appIsolated { val := "sha512-abc" }
    rfl rfl rfl

/-- C6: construction fails with the wrapped check error when the host cgroup
check fails, fails with the setup error when creating the parent cgroup
fails, and otherwise returns a manager holding the supplied options, the
created cgroup and an empty registry, having admitted no container. -/
theorem NewManager_construction (checkCgroups : Option String)
    (newCgroup : String → Except String Cgroup) (opts : Options) :
    (∀ e, checkCgroups = some e →
      NewManager checkCgroups newCgroup opts =
        Except.error (NewManagerError.checkCgroupsFailed e)) ∧
    (∀ e, checkCgroups = none →
      newCgroup opts.parentCgroupName = Except.error e →
      NewManager checkCgroups newCgroup opts =
        Except.error (NewManagerError.cgroupSetupFailed e)) ∧
    (∀ cg, checkCgroups = none →
      newCgroup opts.parentCgroupName = Except.ok cg →
      NewManager checkCgroups newCgroup opts =
        Except.ok { options := opts, cgroup := cg, containers := [] }) := by
  refine ⟨?_, ?_, ?_⟩
  · intro e he
    simp [NewManager, he]
  · intro e hchk hncg
    simp [NewManager, hchk, hncg]
  · intro cg hchk hncg
    simp [NewManager, hchk, hncg]

/-- C6 witness: with a passing check and a succeeding cgroup creation, the
constructed manager carries an empty registry. -/
theorem NewManager_construction_witness :
    NewManager none (fun s => Except.ok { name := s }) optsBase =
      Except.ok { options := optsBase, cgroup := { name := "kurma" }, containers := [] } :=
  (NewManager_construction none (fun s => Except.ok { name := s }) optsBase).2.2
    { name := "kurma" } rfl rfl

/-- C7: removing a container whose identity is absent from the registry
returns the manager unchanged, and removing the same container twice leaves
the same state as removing it once; the operation cannot fail. -/
theorem remove_noop_and_idempotent (m : Manager) (c : Container) :
    (m.hasContainer c.uuid = false → m.remove c = m) ∧
    (m.remove c).remove c = m.remove c := by
  constructor
  · intro h
    have habs : ∀ p ∈ m.containers, ¬(p.1 = c.uuid) := by
      simpa [Manager.hasContainer, List.any_eq_false] using h
    cases m with
    | mk o cg cs =>
      simp only [Manager.remove, Manager.mk.injEq, true_and]
      exact List.filter_eq_self.mpr (fun p hp => by simpa using habs p hp)
  · cases m with
    | mk o cg cs =>
      simp only [Manager.remove, Manager.mk.injEq, true_and]
      exact List.filter_eq_self.mpr (fun p hp => (List.mem_filter.mp hp).2)

/-- C7 witness: removing the never-registered container bbbb from the
concrete registry holding only aaaa is a no-op, and removing it twice equals
removing it once. -/
theorem remove_noop_and_idempotent_witness :
    mgrWithA.remove containerB = mgrWithA ∧
    (mgrWithA.remove containerB).remove containerB = mgrWithA.remove containerB :=
  ⟨(remove_noop_and_idempotent mgrWithA containerB).1 (by decide),
   (remove_noop_and_idempotent mgrWithA containerB).2⟩

/-- C8: for a name satisfying the runtime naming grammar, getVolumePath
returns the join of the configured volume directory and the name, and a
second call with the same name on the resulting filesystem returns the same
path, succeeds, and creates nothing further; for a name failing the grammar
it returns an error and the filesystem is untouched. -/
theorem getVolumePath_spec (m : Manager) (fs : List String) (name : String) :
    (ValidACName name = true →
      (m.getVolumePath fs name).2 =
        Except.ok (filepathJoin m.options.volumeDirectory name) ∧
      m.getVolumePath (m.getVolumePath fs name).1 name =
        ((m.getVolumePath fs name).1,
         Except.ok (filepathJoin m.options.volumeDirectory name))) ∧
    (ValidACName name = false →
      m.getVolumePath fs name = (fs, Except.error Err.invalidName)) := by
  constructor
  · intro hvalid
    by_cases hmem : filepathJoin m.options.volumeDirectory name ∈ fs
    · constructor
      · simp [Manager.getVolumePath, hvalid, hmem]
      · simp [Manager.getVolumePath, hvalid, hmem]
    · constructor
      · simp [Manager.getVolumePath, hvalid, hmem]
      · simp [Manager.getVolumePath, hvalid, hmem]
  · intro hinvalid
    simp [Manager.getVolumePath, hinvalid]

/-- C8 witness: resolving the valid volume name data twice from an empty
filesystem yields the joined path both times and the second call changes
nothing. -/
theorem getVolumePath_spec_witness :
    (mgrNetPid.getVolumePath [] "data").2 =
      Except.ok (filepathJoin mgrNetPid.options.volumeDirectory "data") ∧
    mgrNetPid.getVolumePath (mgrNetPid.getVolumePath [] "data").1 "data" =
      ((mgrNetPid.getVolumePath [] "data").1,
       Except.ok (filepathJoin mgrNetPid.options.volumeDirectory "data")) :=
  (getVolumePath_spec mgrNetPid [] "data").1 rfl

/-- C9: SwapDirectory runs the supplied function on the manager whose
ContainerDirectory is the supplied path, restores ContainerDirectory to its
prior value afterwards, and passes every other field through from the
function result unchanged; the swapped manager differs from the original in
the ContainerDirectory alone. -/
theorem SwapDirectory_frame (m : Manager) (d : String) (f : Manager → Manager) :
    (m.SwapDirectory d f).options.containerDirectory = m.options.containerDirectory ∧
    ({ m with options := { m.options with containerDirectory := d } } :
        Manager).options.containerDirectory = d ∧
    (m.SwapDirectory d f).options.parentCgroupName =
      (f { m with
            options := { m.options with containerDirectory := d } }).options.parentCgroupName ∧
    (m.SwapDirectory d f).options.volumeDirectory =
      (f { m with
            options := { m.options with containerDirectory := d } }).options.volumeDirectory ∧
    (m.SwapDirectory d f).options.requiredNamespaces =
      (f { m with
            options := { m.options with containerDirectory := d } }).options.requiredNamespaces ∧
    (m.SwapDirectory d f).containers =
      (f { m with options := { m.options with containerDirectory := d } }).containers ∧
    (m.SwapDirectory d f).cgroup =
      (f { m with options := { m.options with containerDirectory := d } }).cgroup :=
  ⟨rfl, rfl, rfl, rfl, rfl, rfl, rfl⟩

/-- C10: the network helper random always returns a string of length
min n 32 whose characters all belong to the 62 allowed alphanumeric
characters, for every requested length and every byte stream. -/
theorem random_length_and_alphabet (n : Nat) (bytes : Nat → Nat) :
    (random n bytes).length = min n 32 ∧
    ∀ c ∈ (random n bytes).data, c ∈ alphaNumericalCharacters.data := by
  have hdata : (random n bytes).data =
      (List.range (if n > 32 then 32 else n)).map
        (fun i => alphaNumericalCharacters.data.getD
          ((bytes i % 256) % alphaNumericalCharacters.data.length) (Char.ofNat 48)) := rfl
  constructor
  · have hlen : (random n bytes).length = (random n bytes).data.length := rfl
    rw [hlen, hdata, List.length_map, List.length_range]
    by_cases h : n > 32
    · rw [if_pos h]
      omega
    · rw [if_neg h]
      omega
  · intro c hc
    rw [hdata] at hc
    rcases List.mem_map.mp hc with ⟨i, _, hmap⟩
    rw [← hmap]
    have hlt : (bytes i % 256) % alphaNumericalCharacters.data.length <
        alphaNumericalCharacters.data.length :=
      Nat.mod_lt _ (by decide)
    rw [List.getD_eq_getElem _ _ hlt]
    exact List.getElem_mem hlt

/-- C9 witness: the frame theorem instantiated at a concrete manager, path
and identity function: the ContainerDirectory is restored afterwards. -/
theorem SwapDirectory_frame_witness :
    (mgrWithA.SwapDirectory "/tmp/alt" (fun x => x)).options.containerDirectory =
      mgrWithA.options.containerDirectory :=
  (SwapDirectory_frame mgrWithA "/tmp/alt" (fun x => x)).1

/-- C10 witness: a request for 40 characters from the identity byte stream
yields the capped length min 40 32. -/
theorem random_length_and_alphabet_witness :
    (random 40 (fun i => i)).length = min 40 32 :=
  (random_length_and_alphabet 40 (fun i => i)).1
